import Mathlib

/-!
Verification of the sentiment-analyzer dashboard's core logic.

The scoring pass (`analyzeSentiment`), keyword extraction (`extractKeywords`),
the bounded session-result list (`handleAnalyze` / `handleNewAnalysis`), and the
CSV export formatter (`exportToCSV`) are embedded below.  JavaScript numbers are
modelled as exact rationals (ℚ); every arithmetic value occurring in the scorer
is a small multiple of 1/10, so no behaviour depends on binary-float rounding.
Strings are Lean `String`s; the lower-cased text is worked with as `List Char`.
-/

namespace Emotion

/-- The fixed positive word list of `analyzeSentiment` (15 words). -/
def positiveWords : List String :=
  ["good", "great", "excellent", "amazing", "wonderful", "fantastic", "love",
   "like", "happy", "perfect", "best", "awesome", "brilliant", "outstanding",
   "superb"]

/-- The fixed negative word list of `analyzeSentiment` (15 words). -/
def negativeWords : List String :=
  ["bad", "terrible", "awful", "horrible", "hate", "worst", "disappointing",
   "poor", "sad", "angry", "disgusting", "pathetic", "useless", "annoying",
   "frustrated"]

/-- The fixed neutral word list of `analyzeSentiment` (8 words). -/
def neutralWords : List String :=
  ["okay", "fine", "average", "normal", "standard", "typical", "regular",
   "moderate"]

/-- The fixed strong-negative phrase list of `analyzeSentiment` (4 phrases). -/
def strongNegativePhrases : List String :=
  ["no one should", "never again", "waste of money", "completely disappointed"]

/-- The value of `text.toLowerCase()` as a character list (all source words are ASCII). -/
def lowerText (s : String) : List Char :=
  s.toList.map Char.toLower

/-- Worker for `countOccs`: scans the text left to right; `skip` is the number
of characters still covered by the previous match, inside which the regex
engine does not look for a new match. -/
def countOccsGo (pat : List Char) : List Char → Nat → Nat
  | [], _ => 0
  | c :: cs, 0 =>
    if pat ≠ [] ∧ pat.isPrefixOf (c :: cs) then
      countOccsGo pat cs (pat.length - 1) + 1
    else
      countOccsGo pat cs 0
  | _ :: cs, skip + 1 => countOccsGo pat cs skip

/-- Number of non-overlapping, leftmost occurrences of `pat` in `s`: the value
of `(s.match(new RegExp(pat, 'g')) || []).length` for a non-empty literal
pattern without regex metacharacters. -/
def countOccs (pat s : List Char) : Nat := countOccsGo pat s 0

/-- The test `s.includes(pat)`: whether `pat` occurs as a contiguous substring. -/
def containsSubstr (pat : List Char) : List Char → Bool
  | [] => pat.isEmpty
  | c :: cs => pat.isPrefixOf (c :: cs) || containsSubstr pat cs

/-- Total occurrence count accumulated over a word list (the `forEach` loops
that build `positiveScore`, `negativeScore`, `neutralScore`). -/
def wordScore (ws : List String) (t : List Char) : Nat :=
  (ws.map (fun w => countOccs w.toList t)).sum

/-- The strong-negative bonus: `+3` for each phrase found as a substring. -/
def strongNegBonus (t : List Char) : Nat :=
  3 * (strongNegativePhrases.countP (fun p => containsSubstr p.toList t))

/-- The value of `positiveScore` after the word-counting loop. -/
def rawPositive (t : List Char) : ℚ := wordScore positiveWords t

/-- The value of `negativeScore` after the word-counting loop and the strong-phrase loop. -/
def rawNegative (t : List Char) : ℚ := wordScore negativeWords t + strongNegBonus t

/-- The value of `neutralScore` after the word-counting loop. -/
def rawNeutral (t : List Char) : ℚ := wordScore neutralWords t

/-- The value of `(text.match(/!/g) || []).length`: the number of exclamation marks. -/
def exclCount (t : List Char) : Nat := t.count '!'

/-- The three scores after the exclamation-mark adjustment: if any `!` occurs,
`count * 0.5` is added to whichever of positive/negative is strictly larger. -/
def scoresAfterExcl (t : List Char) : ℚ × ℚ × ℚ :=
  let p := rawPositive t
  let n := rawNegative t
  let u := rawNeutral t
  if 0 < exclCount t then
    if p < n then (p, n + (exclCount t : ℚ) * (1/2), u)
    else if n < p then (p + (exclCount t : ℚ) * (1/2), n, u)
    else (p, n, u)
  else (p, n, u)

/-- The three scores after the zero-signal default: if all three are zero,
`neutralScore` becomes 1. -/
def scoresAfterDefault (t : List Char) : ℚ × ℚ × ℚ :=
  let s := scoresAfterExcl t
  if s.1 = 0 ∧ s.2.1 = 0 ∧ s.2.2 = 0 then (s.1, s.2.1, 1) else s

/-- The value of `positiveScore` as placed into the sentiment array. -/
def posScore (t : List Char) : ℚ := (scoresAfterDefault t).1

/-- The value of `negativeScore` as placed into the sentiment array. -/
def negScore (t : List Char) : ℚ := (scoresAfterDefault t).2.1

/-- The value of `neutralScore` before the display floor. -/
def neuScore (t : List Char) : ℚ := (scoresAfterDefault t).2.2

/-- The neutral entry of the sentiment array: `neutralScore === 0 ? 0.1 :
neutralScore`. -/
def neuFloored (t : List Char) : ℚ :=
  if neuScore t = 0 then 1/10 else neuScore t

/-- One `{ label, score }` entry of the sentiment array. -/
structure SentimentResult where
  label : String
  score : ℚ
deriving DecidableEq, Repr

/-- The sentiment array as constructed, before normalization. -/
def preNormSentiment (t : List Char) : List SentimentResult :=
  [⟨"POSITIVE", posScore t⟩, ⟨"NEGATIVE", negScore t⟩, ⟨"NEUTRAL", neuFloored t⟩]

/-- The divisor `sentiment.reduce((sum, item) => sum + item.score, 0)`. -/
def total (t : List Char) : ℚ :=
  ((preNormSentiment t).map (fun x => x.score)).foldl (· + ·) 0

/-- The sentiment array after dividing every score by `total`. -/
def normalizedSentiment (t : List Char) : List SentimentResult :=
  (preNormSentiment t).map (fun x => ⟨x.label, x.score / total t⟩)

/-- The unique stable descending-by-score order of a three-element array:
the result of `sentiment.sort((a, b) => b.score - a.score)` (ECMAScript sort is
stable, so equal scores keep their original relative order). -/
def sort3 (a b c : SentimentResult) : List SentimentResult :=
  if a.score < b.score then
    if b.score < c.score then [c, b, a]
    else if a.score < c.score then [b, c, a]
    else [b, a, c]
  else
    if a.score < c.score then [c, a, b]
    else if b.score < c.score then [a, c, b]
    else [a, b, c]

/-- The sentiment array after the in-place sort. -/
def sortedSentiment (t : List Char) : List SentimentResult :=
  match normalizedSentiment t with
  | [a, b, c] => sort3 a b c
  | l => l

/-- The fixed stop-word list of `extractKeywords` (12 words). -/
def commonWords : List String :=
  ["that", "this", "with", "have", "will", "been", "they", "there", "their",
   "would", "could", "should"]

/-- A JavaScript word character (`\w`): ASCII letter, digit, or underscore. -/
def isWordChar (c : Char) : Bool :=
  c.isAlpha || c.isDigit || c = '_'

/-- Worker for `wordRuns`: `cur` is the current run of word characters, in
reverse order. -/
def wordRunsGo : List Char → List Char → List (List Char)
  | [], cur => if cur.isEmpty then [] else [cur.reverse]
  | c :: cs, cur =>
    if isWordChar c then
      wordRunsGo cs (c :: cur)
    else if cur.isEmpty then
      wordRunsGo cs []
    else
      cur.reverse :: wordRunsGo cs []

/-- The maximal runs of word characters of a string: the non-empty tokens of
`s.split(/\W+/)` (the split's possible empty edge tokens all have length 0 and
are removed by the `length > 3` filter that immediately follows in the source).
-/
def wordRuns (s : List Char) : List (List Char) := wordRunsGo s []

/-- The function `extractKeywords`: lower-case, split on non-word characters, keep tokens
longer than 3 characters, drop stop words, take the first 5. -/
def extractKeywords (text : String) : List String :=
  let words := ((wordRuns (lowerText text)).map (fun l => String.mk l)).filter
    (fun w => w.length > 3)
  (words.filter (fun w => !commonWords.contains w)).take 5

/-- The `AnalysisResult` record (the `Date` timestamp is carried as its
serialized string form, which is all the exporter reads from it). -/
structure AnalysisResult where
  sentiment : List SentimentResult
  confidence : ℚ
  keywords : List String
  text : String
  timestamp : String
deriving DecidableEq, Repr

/-- The function `analyzeSentiment` (pure content; the artificial delay and the
`isAnalyzing` flag are UI mechanics with no effect on the returned value). -/
def analyzeSentiment (inputText : String) (ts : String) : AnalysisResult :=
  let t := lowerText inputText
  { sentiment := sortedSentiment t
    confidence := ((sortedSentiment t).headD ⟨"NEUTRAL", 0⟩).score
    keywords := extractKeywords inputText
    text := inputText
    timestamp := ts }

/-! ### Session state (`results`, `handleAnalyze`, `handleNewAnalysis`) -/

/-- The two UI events that update the session's `results` array. -/
inductive SessionEvent where
  | analyze (r : AnalysisResult)
  | reset
deriving Repr

/-- One state update of the `results` array: `handleAnalyze` runs
`setResults(prev => [result, ...prev.slice(0, 9)])`; `handleNewAnalysis` runs
`setResults([])`. -/
def stepSession (l : List AnalysisResult) : SessionEvent → List AnalysisResult
  | SessionEvent.analyze r => r :: l.take 9
  | SessionEvent.reset => []

/-- The `results` array reached from the initial empty state by a sequence of
UI events. -/
def runSession (evs : List SessionEvent) : List AnalysisResult :=
  evs.foldl stepSession []

/-! ### CSV export (`exportToCSV` in ExportResults.tsx) -/

/-- The CSV header fields. -/
def csvHeaders : List String :=
  ["Timestamp", "Text", "Primary Sentiment", "Confidence", "Positive %",
   "Negative %", "Neutral %", "Keywords"]

/-- The function `Math.round`: round half toward positive infinity. -/
def jsRound (q : ℚ) : ℤ := ⌊q + 1/2⌋

/-- The field `Math.round(q * 100) + '%'`. -/
def pctString (q : ℚ) : String := toString (jsRound (q * 100)) ++ "%"

/-- CSV quoting: `'"' + s.replace(/"/g, '""') + '"'`. -/
def quoteCSV (s : String) : String :=
  "\"" ++ s.replace "\"" "\"\"" ++ "\""

/-- The value `sentiment.find(s => s.label === lab)?.score || 0`. -/
def findLabelScore (l : List SentimentResult) (lab : String) : ℚ :=
  ((l.find? (fun x => x.label == lab)).map (fun x => x.score)).getD 0

/-- The eight fields of one CSV data row, in source order. -/
def csvFields (r : AnalysisResult) : List String :=
  [r.timestamp,
   quoteCSV r.text,
   (r.sentiment.headD ⟨"NEUTRAL", 0⟩).label,
   pctString r.confidence,
   pctString (findLabelScore r.sentiment "POSITIVE"),
   pctString (findLabelScore r.sentiment "NEGATIVE"),
   pctString (findLabelScore r.sentiment "NEUTRAL"),
   quoteCSV (String.intercalate ", " r.keywords)]

/-- One CSV data row: the fields joined by commas. -/
def csvRow (r : AnalysisResult) : String :=
  String.intercalate "," (csvFields r)

/-- The list of CSV lines: the joined header row, then one row per result. -/
def csvLines (data : List AnalysisResult) : List String :=
  String.intercalate "," csvHeaders :: data.map csvRow

/-- The function `exportToCSV` applied to the sequence it exports (`dataToExport`): the
lines joined by newlines. -/
def exportToCSV (data : List AnalysisResult) : String :=
  String.intercalate "\n" (csvLines data)

/-- The original left-to-right position of each label in the sentiment array
as constructed (used to state the stable tie-break). -/
def labelRank (l : String) : Nat :=
  if l = "POSITIVE" then 0 else if l = "NEGATIVE" then 1 else 2

/-- A concrete `AnalysisResult` used to instantiate universally quantified
theorems. -/
def sampleResult : AnalysisResult :=
  analyzeSentiment "This is the best, most amazing experience!"
    "2024-01-01T00:00:00.000Z"

/-! ### Helper lemmas about the score pipeline -/

theorem rawPositive_nonneg (t : List Char) : 0 ≤ rawPositive t :=
  Nat.cast_nonneg _

theorem rawNegative_nonneg (t : List Char) : 0 ≤ rawNegative t :=
  add_nonneg (Nat.cast_nonneg _) (Nat.cast_nonneg _)

theorem rawNeutral_nonneg (t : List Char) : 0 ≤ rawNeutral t :=
  Nat.cast_nonneg _

theorem scoresAfterExcl_nonneg (t : List Char) :
    0 ≤ (scoresAfterExcl t).1 ∧ 0 ≤ (scoresAfterExcl t).2.1 ∧
      0 ≤ (scoresAfterExcl t).2.2 := by
  have hp := rawPositive_nonneg t
  have hn := rawNegative_nonneg t
  have hu := rawNeutral_nonneg t
  have he : (0 : ℚ) ≤ (exclCount t : ℚ) * (1/2) := by positivity
  simp only [scoresAfterExcl]
  split_ifs <;> exact ⟨by linarith, by linarith, by linarith⟩

theorem posScore_eq (t : List Char) : posScore t = (scoresAfterExcl t).1 := by
  simp only [posScore, scoresAfterDefault]
  split_ifs <;> rfl

theorem negScore_eq (t : List Char) : negScore t = (scoresAfterExcl t).2.1 := by
  simp only [negScore, scoresAfterDefault]
  split_ifs <;> rfl

theorem posScore_nonneg (t : List Char) : 0 ≤ posScore t := by
  rw [posScore_eq]
  exact (scoresAfterExcl_nonneg t).1

theorem negScore_nonneg (t : List Char) : 0 ≤ negScore t := by
  rw [negScore_eq]
  exact (scoresAfterExcl_nonneg t).2.1

theorem neuScore_nonneg (t : List Char) : 0 ≤ neuScore t := by
  simp only [neuScore, scoresAfterDefault]
  split_ifs
  · exact zero_le_one
  · exact (scoresAfterExcl_nonneg t).2.2

theorem neuFloored_pos (t : List Char) : 0 < neuFloored t := by
  simp only [neuFloored]
  split_ifs with h
  · norm_num
  · exact lt_of_le_of_ne (neuScore_nonneg t) (Ne.symm h)

theorem total_eq (t : List Char) :
    total t = posScore t + negScore t + neuFloored t := by
  simp [total, preNormSentiment]

theorem total_pos (t : List Char) : 0 < total t := by
  rw [total_eq]
  have h1 := posScore_nonneg t
  have h2 := negScore_nonneg t
  have h3 := neuFloored_pos t
  linarith

theorem normalizedSentiment_eq (t : List Char) :
    normalizedSentiment t =
      [⟨"POSITIVE", posScore t / total t⟩, ⟨"NEGATIVE", negScore t / total t⟩,
       ⟨"NEUTRAL", neuFloored t / total t⟩] := by
  simp [normalizedSentiment, preNormSentiment]

theorem sortedSentiment_eq (t : List Char) :
    sortedSentiment t =
      sort3 ⟨"POSITIVE", posScore t / total t⟩ ⟨"NEGATIVE", negScore t / total t⟩
        ⟨"NEUTRAL", neuFloored t / total t⟩ := by
  simp only [sortedSentiment, normalizedSentiment_eq]

theorem sentiment_eq (s ts : String) :
    (analyzeSentiment s ts).sentiment =
      sort3 ⟨"POSITIVE", posScore (lowerText s) / total (lowerText s)⟩
        ⟨"NEGATIVE", negScore (lowerText s) / total (lowerText s)⟩
        ⟨"NEUTRAL", neuFloored (lowerText s) / total (lowerText s)⟩ := by
  simp only [analyzeSentiment]
  exact sortedSentiment_eq (lowerText s)

theorem confidence_eq (s ts : String) :
    (analyzeSentiment s ts).confidence =
      ((analyzeSentiment s ts).sentiment.headD ⟨"NEUTRAL", 0⟩).score := rfl

/-! ### The stable three-element sort -/

theorem pairwise3 {R : SentimentResult → SentimentResult → Prop}
    {x y z : SentimentResult} (hxy : R x y) (hxz : R x z) (hyz : R y z) :
    List.Pairwise R [x, y, z] := by
  refine List.Pairwise.cons ?_ (List.Pairwise.cons ?_
    (List.Pairwise.cons ?_ List.Pairwise.nil))
  · intro a ha
    rcases List.mem_cons.mp ha with rfl | ha
    · exact hxy
    · rcases List.mem_singleton.mp ha with rfl
      exact hxz
  · intro a ha
    rcases List.mem_singleton.mp ha with rfl
    exact hyz
  · intro a ha
    exact absurd ha (List.not_mem_nil a)

theorem sort3_perm (a b c : SentimentResult) : (sort3 a b c).Perm [a, b, c] := by
  unfold sort3
  split_ifs
  · exact (List.Perm.swap b c [a]).trans
      ((List.Perm.cons b (List.Perm.swap a c [])).trans (List.Perm.swap a b [c]))
  · exact (List.Perm.cons b (List.Perm.swap a c [])).trans (List.Perm.swap a b [c])
  · exact List.Perm.swap a b [c]
  · exact (List.Perm.swap a c [b]).trans (List.Perm.cons a (List.Perm.swap b c []))
  · exact List.Perm.cons a (List.Perm.swap b c [])
  · exact List.Perm.refl _

theorem sort3_sorted (a b c : SentimentResult) (f : SentimentResult → ℕ)
    (hab : f a < f b) (hbc : f b < f c) :
    (sort3 a b c).Pairwise
      (fun x y => y.score < x.score ∨ (x.score = y.score ∧ f x < f y)) := by
  have hac : f a < f c := hab.trans hbc
  have mk : ∀ x y : SentimentResult, y.score ≤ x.score → f x < f y →
      (y.score < x.score ∨ (x.score = y.score ∧ f x < f y)) := by
    intro x y hle hf
    rcases lt_or_eq_of_le hle with h | h
    · exact Or.inl h
    · exact Or.inr ⟨h.symm, hf⟩
  unfold sort3
  split_ifs with h1 h2 h3 h4 h5
  · exact pairwise3 (Or.inl h2) (Or.inl (h1.trans h2)) (Or.inl h1)
  · exact pairwise3 (mk b c (le_of_not_lt h2) hbc) (Or.inl h1) (Or.inl h3)
  · exact pairwise3 (Or.inl h1) (mk b c (le_of_not_lt h2) hbc)
      (mk a c (le_of_not_lt h3) hac)
  · exact pairwise3 (Or.inl h4) (Or.inl (lt_of_le_of_lt (le_of_not_lt h1) h4))
      (mk a b (le_of_not_lt h1) hab)
  · exact pairwise3 (mk a c (le_of_not_lt h4) hac) (mk a b (le_of_not_lt h1) hab)
      (Or.inl h5)
  · exact pairwise3 (mk a b (le_of_not_lt h1) hab) (mk a c (le_of_not_lt h4) hac)
      (mk b c (le_of_not_lt h5) hbc)

theorem sort3_head_max (a b c : SentimentResult) (d : SentimentResult) :
    ∀ x ∈ sort3 a b c, x.score ≤ ((sort3 a b c).headD d).score := by
  unfold sort3
  split_ifs with h1 h2 h3 h4 h5
  all_goals
    intro x hx
    simp only [List.mem_cons, List.not_mem_nil, or_false] at hx
    simp only [List.headD_cons]
    rcases hx with rfl | rfl | rfl <;> linarith

/-! ### Zero-signal inputs -/

theorem wordScore_eq_zero (ws : List String) (t : List Char)
    (h : ∀ w ∈ ws, countOccs w.toList t = 0) : wordScore ws t = 0 := by
  simp only [wordScore]
  apply List.sum_eq_zero
  intro x hx
  rcases List.mem_map.mp hx with ⟨w, hw, rfl⟩
  exact h w hw

theorem zero_signal_analysis (s ts : String)
    (hp : ∀ w ∈ positiveWords, countOccs w.toList (lowerText s) = 0)
    (hn : ∀ w ∈ negativeWords, countOccs w.toList (lowerText s) = 0)
    (hu : ∀ w ∈ neutralWords, countOccs w.toList (lowerText s) = 0)
    (hph : ∀ p ∈ strongNegativePhrases,
      containsSubstr p.toList (lowerText s) = false) :
    rawPositive (lowerText s) = 0 ∧ rawNegative (lowerText s) = 0 ∧
    rawNeutral (lowerText s) = 0 ∧ neuScore (lowerText s) = 1 ∧
    (analyzeSentiment s ts).sentiment =
      [⟨"NEUTRAL", 1⟩, ⟨"POSITIVE", 0⟩, ⟨"NEGATIVE", 0⟩] ∧
    (analyzeSentiment s ts).confidence = 1 := by
  have hrp : rawPositive (lowerText s) = 0 := by
    simp only [rawPositive, wordScore_eq_zero _ _ hp, Nat.cast_zero]
  have hrn : rawNegative (lowerText s) = 0 := by
    have hb : strongNegBonus (lowerText s) = 0 := by
      simp only [strongNegBonus]
      have hc : strongNegativePhrases.countP
          (fun p => containsSubstr p.toList (lowerText s)) = 0 := by
        apply List.countP_eq_zero.mpr
        intro a ha
        simpa using hph a ha
      omega
    simp only [rawNegative, wordScore_eq_zero _ _ hn, hb, Nat.cast_zero, add_zero]
  have hru : rawNeutral (lowerText s) = 0 := by
    simp only [rawNeutral, wordScore_eq_zero _ _ hu, Nat.cast_zero]
  have hexcl : scoresAfterExcl (lowerText s) = (0, 0, 0) := by
    simp [scoresAfterExcl, hrp, hrn, hru]
  have hdef : scoresAfterDefault (lowerText s) = (0, 0, 1) := by
    simp [scoresAfterDefault, hexcl]
  have hpos : posScore (lowerText s) = 0 := by simp [posScore, hdef]
  have hneg : negScore (lowerText s) = 0 := by simp [negScore, hdef]
  have hneu : neuScore (lowerText s) = 1 := by simp [neuScore, hdef]
  have hflo : neuFloored (lowerText s) = 1 := by simp [neuFloored, hneu]
  have htot : total (lowerText s) = 1 := by
    rw [total_eq, hpos, hneg, hflo]
    norm_num
  have hsent : (analyzeSentiment s ts).sentiment =
      [⟨"NEUTRAL", 1⟩, ⟨"POSITIVE", 0⟩, ⟨"NEGATIVE", 0⟩] := by
    rw [sentiment_eq, hpos, hneg, hflo, htot]
    norm_num [sort3]
  refine ⟨hrp, hrn, hru, hneu, hsent, ?_⟩
  rw [confidence_eq, hsent]
  norm_num

/-- C4: for every input text in which no word of the positive, negative, or
neutral word lists occurs and no strong-negative phrase occurs as a substring,
all three raw scores are zero, `neutralScore` is set to 1, and the result
classifies as NEUTRAL: NEUTRAL ranks first and the confidence (here exactly 1)
comes from this zero-signal default path. -/
theorem zero_signal_classifies_neutral (s ts : String)
    (hp : ∀ w ∈ positiveWords, countOccs w.toList (lowerText s) = 0)
    (hn : ∀ w ∈ negativeWords, countOccs w.toList (lowerText s) = 0)
    (hu : ∀ w ∈ neutralWords, countOccs w.toList (lowerText s) = 0)
    (hph : ∀ p ∈ strongNegativePhrases,
      containsSubstr p.toList (lowerText s) = false) :
    rawPositive (lowerText s) = 0 ∧ rawNegative (lowerText s) = 0 ∧
    rawNeutral (lowerText s) = 0 ∧ neuScore (lowerText s) = 1 ∧
    (analyzeSentiment s ts).sentiment =
      [⟨"NEUTRAL", 1⟩, ⟨"POSITIVE", 0⟩, ⟨"NEGATIVE", 0⟩] ∧
    (analyzeSentiment s ts).confidence = 1 :=
  zero_signal_analysis s ts hp hn hu hph

/-- Witness for C4 at the sentiment-free input "qzv wxy". -/
theorem zero_signal_classifies_neutral_witness :
    rawPositive (lowerText "qzv wxy") = 0 ∧ rawNegative (lowerText "qzv wxy") = 0 ∧
    rawNeutral (lowerText "qzv wxy") = 0 ∧ neuScore (lowerText "qzv wxy") = 1 ∧
    (analyzeSentiment "qzv wxy" "t").sentiment =
      [⟨"NEUTRAL", 1⟩, ⟨"POSITIVE", 0⟩, ⟨"NEGATIVE", 0⟩] ∧
    (analyzeSentiment "qzv wxy" "t").confidence = 1 :=
  zero_signal_classifies_neutral "qzv wxy" "t" (by decide) (by decide) (by decide)
    (by decide)

/-! ### The normalized distribution -/

/-- C1: for every non-empty input text, the sentiment scoring pass returns
exactly three (label, score) pairs, one each for POSITIVE, NEGATIVE, NEUTRAL,
whose scores each lie in [0, 1] and sum to exactly 1 (the embedding computes
in ℚ, so the floating-point tolerance is not needed). -/
theorem sentiment_distribution (s ts : String) (hne : s ≠ "") :
    (analyzeSentiment s ts).sentiment.length = 3 ∧
    ((analyzeSentiment s ts).sentiment.map (fun x => x.label)).Perm
      ["POSITIVE", "NEGATIVE", "NEUTRAL"] ∧
    (∀ x ∈ (analyzeSentiment s ts).sentiment, 0 ≤ x.score ∧ x.score ≤ 1) ∧
    ((analyzeSentiment s ts).sentiment.map (fun x => x.score)).sum = 1 := by
  obtain ⟨p, n, u, T, hp0, hn0, hu0, hT, hsum, hsent⟩ :
      ∃ p n u T, 0 ≤ p ∧ 0 ≤ n ∧ 0 < u ∧ 0 < T ∧ p + n + u = T ∧
        (analyzeSentiment s ts).sentiment =
          sort3 ⟨"POSITIVE", p/T⟩ ⟨"NEGATIVE", n/T⟩ ⟨"NEUTRAL", u/T⟩ :=
    ⟨_, _, _, _, posScore_nonneg _, negScore_nonneg _, neuFloored_pos _,
      total_pos _, (total_eq _).symm, sentiment_eq s ts⟩
  have hTne : T ≠ 0 := ne_of_gt hT
  have hperm := sort3_perm ⟨"POSITIVE", p/T⟩ ⟨"NEGATIVE", n/T⟩ ⟨"NEUTRAL", u/T⟩
  rw [hsent]
  refine ⟨?_, ?_, ?_, ?_⟩
  · rw [hperm.length_eq]
    rfl
  · simpa using hperm.map (fun x => x.label)
  · intro x hx
    have hx3 := hperm.mem_iff.mp hx
    simp only [List.mem_cons, List.not_mem_nil, or_false] at hx3
    rcases hx3 with rfl | rfl | rfl
    · exact ⟨div_nonneg hp0 (le_of_lt hT), by rw [div_le_one hT]; linarith⟩
    · exact ⟨div_nonneg hn0 (le_of_lt hT), by rw [div_le_one hT]; linarith⟩
    · exact ⟨div_nonneg (le_of_lt hu0) (le_of_lt hT),
        by rw [div_le_one hT]; linarith⟩
  · rw [(hperm.map (fun x => x.score)).sum_eq]
    simp only [List.map_cons, List.map_nil, List.sum_cons, List.sum_nil]
    field_simp
    linarith

/-- Witness for C1 at the input "good". -/
theorem sentiment_distribution_witness :
    (analyzeSentiment "good" "t").sentiment.length = 3 ∧
    ((analyzeSentiment "good" "t").sentiment.map (fun x => x.label)).Perm
      ["POSITIVE", "NEGATIVE", "NEUTRAL"] ∧
    (∀ x ∈ (analyzeSentiment "good" "t").sentiment, 0 ≤ x.score ∧ x.score ≤ 1) ∧
    ((analyzeSentiment "good" "t").sentiment.map (fun x => x.score)).sum = 1 :=
  sentiment_distribution "good" "t" (by decide)

/-- C3: after the scoring pass the three (label, score) pairs are sorted
descending by normalized score, ties broken by the original left-to-right
order POSITIVE, NEGATIVE, NEUTRAL (`labelRank`), and the returned confidence
equals the first (top) score after this sort — in particular it is the maximum
of the three scores. -/
theorem sentiment_sorted_confidence_top (s ts : String) :
    (analyzeSentiment s ts).sentiment.Pairwise
      (fun x y => y.score < x.score ∨
        (x.score = y.score ∧ labelRank x.label < labelRank y.label)) ∧
    (analyzeSentiment s ts).confidence =
      ((analyzeSentiment s ts).sentiment.headD ⟨"NEUTRAL", 0⟩).score ∧
    ∀ x ∈ (analyzeSentiment s ts).sentiment,
      x.score ≤ (analyzeSentiment s ts).confidence := by
  refine ⟨?_, rfl, ?_⟩
  · rw [sentiment_eq]
    have hab : labelRank "POSITIVE" < labelRank "NEGATIVE" := by decide
    have hbc : labelRank "NEGATIVE" < labelRank "NEUTRAL" := by decide
    exact sort3_sorted _ _ _ (fun x => labelRank x.label) hab hbc
  · intro x hx
    rw [sentiment_eq] at hx
    rw [confidence_eq, sentiment_eq]
    exact sort3_head_max _ _ _ ⟨"NEUTRAL", 0⟩ x hx

/-- Witness for C3 at the input "zzz", whose sorted sentiment list contains
the entry ⟨NEUTRAL, 1⟩. -/
theorem sentiment_sorted_confidence_top_witness :
    (⟨"NEUTRAL", 1⟩ : SentimentResult).score ≤
      (analyzeSentiment "zzz" "t").confidence := by
  have hz := zero_signal_analysis "zzz" "t" (by decide) (by decide) (by decide)
    (by decide)
  exact (sentiment_sorted_confidence_top "zzz" "t").2.2 ⟨"NEUTRAL", 1⟩
    (by rw [hz.2.2.2.2.1]; simp)

/-- C10 (implicit): for every input text the returned confidence is at least
1/3, because it is the maximum of three non-negative normalized scores that
sum to 1. -/
theorem confidence_at_least_third (s ts : String) :
    1/3 ≤ (analyzeSentiment s ts).confidence := by
  obtain ⟨p, n, u, T, hp0, hn0, hu0, hT, hsum, hsent⟩ :
      ∃ p n u T, 0 ≤ p ∧ 0 ≤ n ∧ 0 < u ∧ 0 < T ∧ p + n + u = T ∧
        (analyzeSentiment s ts).sentiment =
          sort3 ⟨"POSITIVE", p/T⟩ ⟨"NEGATIVE", n/T⟩ ⟨"NEUTRAL", u/T⟩ :=
    ⟨_, _, _, _, posScore_nonneg _, negScore_nonneg _, neuFloored_pos _,
      total_pos _, (total_eq _).symm, sentiment_eq s ts⟩
  have hTne : T ≠ 0 := ne_of_gt hT
  have hperm := sort3_perm ⟨"POSITIVE", p/T⟩ ⟨"NEGATIVE", n/T⟩ ⟨"NEUTRAL", u/T⟩
  have hmax := sort3_head_max ⟨"POSITIVE", p/T⟩ ⟨"NEGATIVE", n/T⟩
    ⟨"NEUTRAL", u/T⟩ ⟨"NEUTRAL", 0⟩
  have e1 : p/T ≤ ((sort3 ⟨"POSITIVE", p/T⟩ ⟨"NEGATIVE", n/T⟩
      ⟨"NEUTRAL", u/T⟩).headD ⟨"NEUTRAL", 0⟩).score :=
    hmax ⟨"POSITIVE", p/T⟩ (hperm.mem_iff.mpr (by simp))
  have e2 : n/T ≤ ((sort3 ⟨"POSITIVE", p/T⟩ ⟨"NEGATIVE", n/T⟩
      ⟨"NEUTRAL", u/T⟩).headD ⟨"NEUTRAL", 0⟩).score :=
    hmax ⟨"NEGATIVE", n/T⟩ (hperm.mem_iff.mpr (by simp))
  have e3 : u/T ≤ ((sort3 ⟨"POSITIVE", p/T⟩ ⟨"NEGATIVE", n/T⟩
      ⟨"NEUTRAL", u/T⟩).headD ⟨"NEUTRAL", 0⟩).score :=
    hmax ⟨"NEUTRAL", u/T⟩ (hperm.mem_iff.mpr (by simp))
  have hsum3 : p/T + n/T + u/T = 1 := by
    field_simp
    linarith
  have hconf : (analyzeSentiment s ts).confidence =
      ((sort3 ⟨"POSITIVE", p/T⟩ ⟨"NEGATIVE", n/T⟩
        ⟨"NEUTRAL", u/T⟩).headD ⟨"NEUTRAL", 0⟩).score := by
    rw [confidence_eq, hsent]
  rw [hconf]
  linarith

/-! ### The neutral floor and the exclamation adjustment -/

theorem no_excl_no_default (t : List Char) (he : exclCount t = 0)
    (hnz : ¬(rawPositive t = 0 ∧ rawNegative t = 0 ∧ rawNeutral t = 0)) :
    posScore t = rawPositive t ∧ negScore t = rawNegative t ∧
      neuScore t = rawNeutral t := by
  have hx : scoresAfterExcl t = (rawPositive t, rawNegative t, rawNeutral t) := by
    simp [scoresAfterExcl, he]
  have hd : scoresAfterDefault t =
      (rawPositive t, rawNegative t, rawNeutral t) := by
    simp only [scoresAfterDefault, hx]
    exact if_neg hnz
  exact ⟨by simp [posScore, hd], by simp [negScore, hd], by simp [neuScore, hd]⟩

/-- C5: whenever the neutral score is still zero after the zero-signal step
while the positive or negative score is nonzero, the neutral entry of the
sentiment array is set to exactly 1/10 before normalization, and the
normalization divisor is the sum of the three scores including this floor. -/
theorem neutral_floor (s : String) (h0 : neuScore (lowerText s) = 0)
    (h1 : posScore (lowerText s) ≠ 0 ∨ negScore (lowerText s) ≠ 0) :
    neuFloored (lowerText s) = 1/10 ∧
    total (lowerText s) =
      posScore (lowerText s) + negScore (lowerText s) + 1/10 := by
  have hf : neuFloored (lowerText s) = 1/10 := by simp [neuFloored, h0]
  exact ⟨hf, by rw [total_eq, hf]⟩

/-- Witness for C5 at the input "good" (one positive word, no neutral word). -/
theorem neutral_floor_witness :
    neuFloored (lowerText "good") = 1/10 ∧
    total (lowerText "good") =
      posScore (lowerText "good") + negScore (lowerText "good") + 1/10 := by
  have h := no_excl_no_default (lowerText "good") (by decide)
    (fun hc => absurd hc.1 (by decide))
  exact neutral_floor "good" (by rw [h.2.2]; decide)
    (Or.inl (by rw [h.1]; decide))

theorem rawNeg_lt_rawPos_iff (t : List Char) :
    rawNegative t < rawPositive t ↔
      wordScore negativeWords t + strongNegBonus t <
        wordScore positiveWords t := by
  unfold rawNegative rawPositive
  rw [← Nat.cast_add]
  exact Nat.cast_lt

/-- C6: if the exclamation count is positive, `count * 0.5` is added to the
positive score when it is strictly larger than the negative one, to the
negative score when that one is strictly larger, and to neither on a tie;
with no exclamation mark the scores are unchanged. -/
theorem exclamation_adjustment (s : String) :
    (0 < exclCount (lowerText s) →
      ((rawNegative (lowerText s) < rawPositive (lowerText s) →
          scoresAfterExcl (lowerText s) =
            (rawPositive (lowerText s) +
              (exclCount (lowerText s) : ℚ) * (1/2),
             rawNegative (lowerText s), rawNeutral (lowerText s))) ∧
       (rawPositive (lowerText s) < rawNegative (lowerText s) →
          scoresAfterExcl (lowerText s) =
            (rawPositive (lowerText s),
             rawNegative (lowerText s) +
               (exclCount (lowerText s) : ℚ) * (1/2),
             rawNeutral (lowerText s))) ∧
       (rawPositive (lowerText s) = rawNegative (lowerText s) →
          scoresAfterExcl (lowerText s) =
            (rawPositive (lowerText s), rawNegative (lowerText s),
             rawNeutral (lowerText s))))) ∧
    (exclCount (lowerText s) = 0 →
      scoresAfterExcl (lowerText s) =
        (rawPositive (lowerText s), rawNegative (lowerText s),
         rawNeutral (lowerText s))) := by
  constructor
  · intro he
    refine ⟨fun hlt => ?_, fun hlt => ?_, fun heq => ?_⟩ <;>
      · simp only [scoresAfterExcl]
        split_ifs <;> first | rfl | (exfalso; omega) | (exfalso; linarith)
  · intro he
    simp only [scoresAfterExcl]
    split_ifs <;> first | rfl | (exfalso; omega)

/-- Witness for C6 at the input "good!" (one positive word, one exclamation
mark, positive strictly above negative). -/
theorem exclamation_adjustment_witness :
    scoresAfterExcl (lowerText "good!") =
      (rawPositive (lowerText "good!") +
        (exclCount (lowerText "good!") : ℚ) * (1/2),
       rawNegative (lowerText "good!"), rawNeutral (lowerText "good!")) :=
  ((exclamation_adjustment "good!").1 (by decide)).1
    (by rw [rawNeg_lt_rawPos_iff]; decide)

/-! ### Keyword extraction, total positivity, session bound -/

/-- C7: `extractKeywords` lower-cases the text, splits it on non-word-character
boundaries, keeps only tokens longer than 3 characters, drops the stop words,
and returns the first at most 5 surviving tokens in their original order
(stated as: at most 5 results, each surviving both filters, the result an
order-preserving sublist of the token list; checked against the spec's
example input). -/
theorem extractKeywords_spec (text : String) :
    (extractKeywords text).length ≤ 5 ∧
    (∀ w ∈ extractKeywords text, 3 < w.length ∧ w ∉ commonWords) ∧
    (extractKeywords text).Sublist
      ((wordRuns (lowerText text)).map (fun l => String.mk l)) ∧
    extractKeywords "That wonderful movie was truly fantastic and memorable" =
      ["wonderful", "movie", "truly", "fantastic", "memorable"] := by
  refine ⟨?_, ?_, ?_, by decide⟩
  · simp only [extractKeywords]
    exact List.length_take_le _ _
  · intro w hw
    simp only [extractKeywords] at hw
    have hw1 := List.mem_of_mem_take hw
    rcases List.mem_filter.mp hw1 with ⟨hw2, hnc⟩
    rcases List.mem_filter.mp hw2 with ⟨hw3, hlen⟩
    refine ⟨by simpa using hlen, ?_⟩
    simpa using hnc
  · simp only [extractKeywords]
    exact (List.take_sublist _ _).trans
      ((List.filter_sublist _).trans (List.filter_sublist _))

/-- Witness for C7: the token "wonderful" returned on the spec's example
input survives both filters. -/
theorem extractKeywords_spec_witness :
    3 < "wonderful".length ∧ "wonderful" ∉ commonWords :=
  (extractKeywords_spec
      "That wonderful movie was truly fantastic and memorable").2.1
    "wonderful" (by decide)

/-- C8: the scoring pass cannot fail on any string (in particular on every
valid input, non-empty after trimming): the normalization divisor — the sum
of the three scores after the zero-signal default and the 0.1 neutral floor —
is strictly positive, so the division is by a nonzero number and no error
branch exists. -/
theorem scoring_total_never_zero (s : String) :
    0 < total (lowerText s) ∧ total (lowerText s) ≠ 0 :=
  ⟨total_pos (lowerText s), ne_of_gt (total_pos (lowerText s))⟩

theorem stepSession_bound (l : List AnalysisResult) (e : SessionEvent)
    (h : l.length ≤ 10) : (stepSession l e).length ≤ 10 := by
  cases e with
  | analyze r =>
    simp only [stepSession, List.length_cons, List.length_take]
    omega
  | reset => simp [stepSession]

theorem runSession_bound :
    ∀ (evs : List SessionEvent) (l : List AnalysisResult),
      l.length ≤ 10 → (List.foldl stepSession l evs).length ≤ 10
  | [], l, h => by simpa using h
  | e :: rest, l, h => by
    simp only [List.foldl_cons]
    exact runSession_bound rest _ (stepSession_bound l e h)

/-- C9: the in-memory session array of recent results never holds more than
10 entries: an analyze step maps a list of length n to one of length
min (n + 1) 10, a reset empties the list, every step preserves the ≤ 10
bound, and every reachable state satisfies it. -/
theorem session_bounded :
    (∀ (r : AnalysisResult) (l : List AnalysisResult),
        (stepSession l (SessionEvent.analyze r)).length =
          min (l.length + 1) 10) ∧
    (∀ l : List AnalysisResult, stepSession l SessionEvent.reset = []) ∧
    (∀ (l : List AnalysisResult) (e : SessionEvent),
        l.length ≤ 10 → (stepSession l e).length ≤ 10) ∧
    (∀ evs : List SessionEvent, (runSession evs).length ≤ 10) := by
  refine ⟨?_, fun _ => rfl, stepSession_bound, ?_⟩
  · intro r l
    simp only [stepSession, List.length_cons, List.length_take]
    omega
  · intro evs
    exact runSession_bound evs [] (by simp)

/-- Witness for C9: one analyze step from the empty state stays within the
bound. -/
theorem session_bounded_witness :
    (stepSession [] (SessionEvent.analyze sampleResult)).length ≤ 10 :=
  session_bounded.2.2.1 [] (SessionEvent.analyze sampleResult) (by decide)

/-! ### CSV structure -/

/-- C2: for every sequence of `AnalysisResult` given to the CSV exporter, the
produced CSV is the newline-join of one header row plus one row per result in
order, where each data row is the comma-join of exactly the eight fields
timestamp, quoted text, primary label, confidence %, the three per-label
percentages, and the quoted keyword list (one field per header column). -/
theorem csv_export_structure (data : List AnalysisResult) :
    exportToCSV data = String.intercalate "\n" (csvLines data) ∧
    (csvLines data).length = data.length + 1 ∧
    (csvLines data).headD "" = String.intercalate "," csvHeaders ∧
    (∀ i (h : i < data.length),
        (csvLines data).getD (i + 1) "" = csvRow (data.get ⟨i, h⟩)) ∧
    (∀ r : AnalysisResult, csvRow r = String.intercalate "," (csvFields r) ∧
        (csvFields r).length = csvHeaders.length) := by
  refine ⟨rfl, by simp [csvLines], rfl, ?_, fun r => ⟨rfl, rfl⟩⟩
  intro i h
  simp only [csvLines, List.getD_cons_succ]
  rw [List.getD_eq_getElem _ _ (by simpa using h)]
  simp [h]

/-- Witness for C2: the second line of the CSV for a one-element sequence is
the data row of that element. -/
theorem csv_export_structure_witness :
    (csvLines [sampleResult]).getD 1 "" =
      csvRow (([sampleResult] : List AnalysisResult).get ⟨0, by decide⟩) :=
  (csv_export_structure [sampleResult]).2.2.2.1 0 (by decide)

end Emotion
